import Mathlib

/-!
Shallow embedding of the reliable message-delivery core of the free-chat
frontend (src/src/App.tsx): the dedup filter over inbound messages, the
pending-delivery ledger with its retry scheduler, the connection lifecycle
handlers, the send entry point, and the neon colour hash.

Modelling conventions:
* React state and the two refs (dedup set, pending map) are gathered into one
  record `AppState`.  The JS `Set` of received ids is a `List String` used
  only through membership; the JS `Map` of pending messages is an association
  list with `mapGet` / `mapSet` / `mapDelete` mirroring Map semantics.
* `setTimeout` is modelled by an armed-timer list: `sendMessageWithRetry`
  arms a fresh timer whose payload is the closure's captured data
  (message and retryCount) and whose earliest firing instant is
  `now + RETRY_TIMEOUT`; `clearTimeout` disarms it; the runtime may fire an
  armed timer at any instant not before its deadline (event `evTimer`).
* Observable side effects (socket.emit of `send_message`, and the console
  log of a terminal delivery failure) are collected in a trace of `Effect`s.
* The random session id `MY_USER_ID` and the random per-message id generated
  in `sendMessage` are environment-supplied values: the former is a field of
  the state, the latter a parameter of the submit event.
-/

namespace FreeChat

/-- Retry policy constant MAX_RETRIES from App.tsx. -/
def MAX_RETRIES : Nat := 3

/-- Retry policy constant RETRY_TIMEOUT (milliseconds) from App.tsx. -/
def RETRY_TIMEOUT : Nat := 3000

/-- Interpret an integer as a 32-bit signed value (ECMAScript ToInt32),
as applied by the `<<` operator in stringToNeonColor. -/
def toInt32 (n : Int) : Int :=
  let m := n % 4294967296
  if m < 2147483648 then m else m - 4294967296

/-- One iteration of the hash loop in stringToNeonColor:
`hash = str.charCodeAt(i) + ((hash << 5) - hash)`, where `<<` coerces its
operand to Int32 and truncates its result to Int32, while `+` and `-` are
exact on the integer range involved. -/
def hashStep (hash : Int) (c : Nat) : Int :=
  (c : Int) + (toInt32 (toInt32 hash * 32) - hash)

/-- The accumulated hash over the characters of the string. -/
def strHash (s : String) : Int :=
  s.data.foldl (fun h c => hashStep h c.toNat) 0

/-- stringToNeonColor from App.tsx: hue = Math.abs(hash) % 360, rendered as
an HSL colour string. -/
def stringToNeonColor (str : String) : String :=
  let h : Nat := (strHash str).natAbs % 360
  "hsl(" ++ toString h ++ ", 100%, 60%)"

/-- The Message interface of App.tsx. -/
structure Message where
  text : String
  senderId : String
  id : String
  timestamp : Option Nat
  deriving DecidableEq, Repr

/-- The PendingMessage interface of App.tsx: message data plus retry count
and the (optional) handle of its retry timer. -/
structure PendingEntry where
  msg : Message
  retryCount : Nat
  timeout : Option Nat
  deriving DecidableEq, Repr

/-- An armed setTimeout callback produced by sendMessageWithRetry: the data
captured by the closure and the earliest instant at which it may fire. -/
structure Timer where
  tid : Nat
  msg : Message
  retryCount : Nat
  fireAt : Nat
  deriving DecidableEq, Repr

/-- The component state: React useState values (inputText, messages,
userCount, isConnected) together with the two refs (dedup set, pending map),
the timer bookkeeping, the current time and the session identity. -/
structure AppState where
  inputText : String
  messages : List Message
  userCount : Nat
  isConnected : Bool
  receivedMessageIds : List String
  pending : List (String × PendingEntry)
  timers : List Timer
  nextTid : Nat
  now : Nat
  myUserId : String
  deriving DecidableEq, Repr

/-- Observable side effects of the delivery core: a `socket.emit` of
`send_message` (with the attempt's retryCount and the emission instant), and
the console log reporting a terminal delivery failure. -/
inductive Effect where
  | emitSend (msg : Message) (retryCount : Nat) (time : Nat)
  | logFailure (id : String)
  deriving DecidableEq, Repr

/-- External events driving the component: socket lifecycle events, inbound
deliveries, acknowledgment callbacks, timer firings, and user actions. -/
inductive Event where
  | evConnect (time : Nat)
  | evDisconnect (time : Nat)
  | evReconnectAttempt (attempt : Nat) (time : Nat)
  | evReconnect (attempt : Nat) (time : Nat)
  | evSync (batch : List Message) (time : Nat)
  | evReceive (msg : Message) (time : Nat)
  | evUserCount (count : Nat) (time : Nat)
  | evAck (msg : Message) (retryCount : Nat) (success : Bool) (time : Nat)
  | evTimer (tid : Nat) (time : Nat)
  | evSubmit (newId : String) (time : Nat)
  | evSetInput (text : String) (time : Nat)
  deriving DecidableEq, Repr

/-- JS `Map.get` on the pending map. -/
def mapGet (m : List (String × PendingEntry)) (k : String) : Option PendingEntry :=
  match m.find? (fun p => p.1 == k) with
  | some p => some p.2
  | none => none

/-- JS `Map.set`: overwrite in place when the key exists, append otherwise. -/
def mapSet (m : List (String × PendingEntry)) (k : String) (v : PendingEntry) :
    List (String × PendingEntry) :=
  if m.any (fun p => p.1 == k) then
    m.map (fun p => if p.1 == k then (k, v) else p)
  else
    m ++ [(k, v)]

/-- JS `Map.delete` (deleting an absent key is a no-op). -/
def mapDelete (m : List (String × PendingEntry)) (k : String) :
    List (String × PendingEntry) :=
  m.filter (fun p => p.1 != k)

/-- `clearTimeout`: disarm the timer with the given handle. -/
def clearTimer (s : AppState) (tid : Nat) : AppState :=
  { s with timers := s.timers.filter (fun tm => tm.tid != tid) }

/-- sendMessageWithRetry from App.tsx: emit `send_message`, arm a retry
timer for `RETRY_TIMEOUT` from now, and record the pending entry (keyed by
message id) with the current retryCount and the timer handle. -/
def sendMessageWithRetry (s : AppState) (msgData : Message) (retryCount : Nat) :
    AppState × List Effect :=
  let tid := s.nextTid
  let s1 : AppState :=
    { s with
      timers := s.timers ++ [⟨tid, msgData, retryCount, s.now + RETRY_TIMEOUT⟩],
      nextTid := tid + 1,
      pending := mapSet s.pending msgData.id ⟨msgData, retryCount, some tid⟩ }
  (s1, [Effect.emitSend msgData retryCount s.now])

/-- handleMessageFailure from App.tsx: clear the stored timer of the current
pending entry (when there is one), then either retry (retryCount below
MAX_RETRIES) or, at the bound, delete the ledger entry and log the terminal
failure to the console. -/
def handleMessageFailure (s : AppState) (msgData : Message) (retryCount : Nat) :
    AppState × List Effect :=
  let s1 : AppState :=
    match mapGet s.pending msgData.id with
    | some p =>
      match p.timeout with
      | some tid => clearTimer s tid
      | none => s
    | none => s
  if retryCount < MAX_RETRIES then
    sendMessageWithRetry s1 msgData (retryCount + 1)
  else
    ({ s1 with pending := mapDelete s1.pending msgData.id },
     [Effect.logFailure msgData.id])

/-- The acknowledgment callback passed to `socket.emit` in
sendMessageWithRetry: a successful ack deletes the pending entry; any other
response goes through handleMessageFailure with the attempt's retryCount. -/
def ackCallback (s : AppState) (msgData : Message) (retryCount : Nat)
    (success : Bool) : AppState × List Effect :=
  if success then
    ({ s with pending := mapDelete s.pending msgData.id }, [])
  else
    handleMessageFailure s msgData retryCount

/-- The code points stripped by ECMAScript String.prototype.trim:
WhiteSpace (TAB, VT, FF, SP, NBSP, ZWNBSP/BOM and the Unicode
space-separator category Zs) together with LineTerminator
(LF, CR, LS, PS). -/
def jsWhitespace (c : Char) : Bool :=
  let n := c.toNat
  n = 0x9 || n = 0xA || n = 0xB || n = 0xC || n = 0xD || n = 0x20 ||
  n = 0xA0 || n = 0x1680 || (0x2000 <= n && n <= 0x200A) ||
  n = 0x2028 || n = 0x2029 || n = 0x202F || n = 0x205F ||
  n = 0x3000 || n = 0xFEFF

/-- ECMAScript String.prototype.trim: drop leading and trailing
ECMAScript whitespace (structurally recursive so that concrete instances
compute). -/
def jsTrim (s : String) : String :=
  String.mk (((s.data.dropWhile jsWhitespace).reverse.dropWhile
    jsWhitespace).reverse)

/-- sendMessage from App.tsx: on form submit, if the trimmed input is
non-empty, build a new message (text as typed, sender = session id, fresh
environment-supplied id), hand it to sendMessageWithRetry, and clear the
input; otherwise do nothing. -/
def sendMessage (s : AppState) (newId : String) : AppState × List Effect :=
  if jsTrim s.inputText = "" then
    (s, [])
  else
    let newMessage : Message := ⟨s.inputText, s.myUserId, newId, none⟩
    let r := sendMessageWithRetry s newMessage 0
    ({ r.1 with inputText := "" }, r.2)

/-- The filter body of handleSyncMessages: walk the batch, admitting each
message whose id is not yet in the dedup set and adding admitted ids to the
set as it goes; returns the grown set and the admitted messages in order. -/
def syncFilter (ids : List String) : List Message → List String × List Message
  | [] => (ids, [])
  | m :: rest =>
    if ids.contains m.id then
      syncFilter ids rest
    else
      let r := syncFilter (m.id :: ids) rest
      (r.1, m :: r.2)

/-- handleSyncMessages from App.tsx: filter the batch through the shared
dedup set and append the admitted messages to the timeline (the
`length > 0` guard skips the no-op state update). -/
def handleSyncMessages (s : AppState) (syncedMessages : List Message) : AppState :=
  let r := syncFilter s.receivedMessageIds syncedMessages
  { s with
    receivedMessageIds := r.1,
    messages := if r.2.length > 0 then s.messages ++ r.2 else s.messages }

/-- handleReceiveMessage from App.tsx: admit the message and append it to
the timeline when its id is new, ignore it otherwise. -/
def handleReceiveMessage (s : AppState) (data : Message) : AppState :=
  if s.receivedMessageIds.contains data.id then s
  else
    { s with
      receivedMessageIds := data.id :: s.receivedMessageIds,
      messages := s.messages ++ [data] }

/-- Advance the session clock to the instant of the event being processed. -/
def withNow (s : AppState) (t : Nat) : AppState :=
  { s with now := t }

/-- One step of the event loop, dispatching to the handlers registered in
the main useEffect of App.tsx.  A timer event runs the setTimeout callback
of sendMessageWithRetry: it may only fire while armed and not before its
deadline; firing consumes the timer, and the callback retries only if the
message id is still pending. -/
def step (s0 : AppState) (e : Event) : AppState × List Effect :=
  match e with
  | .evConnect t => ({ withNow s0 t with isConnected := true }, [])
  | .evDisconnect t => ({ withNow s0 t with isConnected := false }, [])
  | .evReconnectAttempt _ t => (withNow s0 t, [])
  | .evReconnect _ t => ({ withNow s0 t with isConnected := true }, [])
  | .evSync batch t => (handleSyncMessages (withNow s0 t) batch, [])
  | .evReceive m t => (handleReceiveMessage (withNow s0 t) m, [])
  | .evUserCount n t => ({ withNow s0 t with userCount := n }, [])
  | .evSetInput txt t => ({ withNow s0 t with inputText := txt }, [])
  | .evSubmit newId t => sendMessage (withNow s0 t) newId
  | .evAck m k success t => ackCallback (withNow s0 t) m k success
  | .evTimer tid t =>
    let s := withNow s0 t
    match s.timers.find? (fun tm => tm.tid == tid) with
    | none => (s, [])
    | some tm =>
      if t < tm.fireAt then (s, [])
      else
        let s1 : AppState := { s with timers := s.timers.filter (fun x => x.tid != tid) }
        if (mapGet s1.pending tm.msg.id).isSome then
          handleMessageFailure s1 tm.msg tm.retryCount
        else (s1, [])

/-- Run a sequence of events, accumulating the effect trace. -/
def run (s : AppState) : List Event → AppState × List Effect
  | [] => (s, [])
  | e :: rest =>
    let r1 := step s e
    let r2 := run r1.1 rest
    (r2.1, r1.2 ++ r2.2)

/-- The freshly mounted component: empty input, empty timeline, empty dedup
set, empty ledger, no timers, clock at zero, with the session's random
user id. -/
def initState (uid : String) : AppState :=
  { inputText := ""
    messages := []
    userCount := 0
    isConnected := false
    receivedMessageIds := []
    pending := []
    timers := []
    nextTid := 0
    now := 0
    myUserId := uid }

/-- Number of timeline entries carrying a given message id. -/
def countId (ms : List Message) (i : String) : Nat :=
  ms.countP (fun m => m.id == i)

/-- Whether an event delivers a message with the given id (live push or
replay batch). -/
def eventDeliversId (e : Event) (i : String) : Bool :=
  match e with
  | .evReceive m _ => m.id == i
  | .evSync b _ => b.any (fun m => m.id == i)
  | _ => false

/-- Dedup invariant: an id occurs in the visible timeline exactly once if it
is in the dedup set, and never otherwise. -/
def dedupInv (s : AppState) : Prop :=
  ∀ i, countId s.messages i = if s.receivedMessageIds.contains i then 1 else 0

/-- C10: stringToNeonColor is a deterministic pure function returning
"hsl(h, 100%, 60%)" for an integer hue h with 0 ≤ h < 360 computed from the
character codes; equal inputs yield equal colours. -/
theorem c10_stringToNeonColor_pure_range :
    ∀ str : String, ∃ h : Nat, h < 360 ∧
      stringToNeonColor str = "hsl(" ++ toString h ++ ", 100%, 60%)" ∧
      ∀ str2 : String, str2 = str → stringToNeonColor str2 = stringToNeonColor str := by
  intro str
  refine ⟨(strHash str).natAbs % 360, Nat.mod_lt _ (by norm_num), rfl, ?_⟩
  intro str2 h2
  rw [h2]

/-- Witness for C10 at the concrete input "abc" (hue 234). -/
theorem c10_witness :
    stringToNeonColor "abc" = stringToNeonColor "abc" ∧
      ∃ h : Nat, h < 360 ∧
        stringToNeonColor "abc" = "hsl(" ++ toString h ++ ", 100%, 60%)" := by
  obtain ⟨h, hlt, heq, hdet⟩ := c10_stringToNeonColor_pure_range "abc"
  exact ⟨hdet "abc" rfl, h, hlt, heq⟩

/-- C4 counterexample: with one entry resident in the pending ledger, the
connect event produces no transport emission at all (so the entry is not
resent and no resynchronization request is sent) and leaves the ledger and
timers untouched; only the connected flag changes.  This refutes the claim
that entering Connected immediately resends every pending entry and requests
a history resynchronization. -/
theorem c4_counterexample :
    ((run { initState "u" with inputText := "hi" } [.evSubmit "m1" 0]).1.pending ≠ []) ∧
    (step (run { initState "u" with inputText := "hi" } [.evSubmit "m1" 0]).1
        (.evConnect 50)).2 = [] ∧
    (step (run { initState "u" with inputText := "hi" } [.evSubmit "m1" 0]).1
        (.evConnect 50)).1.pending
      = (run { initState "u" with inputText := "hi" } [.evSubmit "m1" 0]).1.pending ∧
    (step (run { initState "u" with inputText := "hi" } [.evSubmit "m1" 0]).1
        (.evConnect 50)).1.timers
      = (run { initState "u" with inputText := "hi" } [.evSubmit "m1" 0]).1.timers := by
  decide

/-- C4 amended: on a connect or reconnect event the handler only sets the
connected flag (and the clock advances); no ledger entry is resent, no
resynchronization is requested by the client, and no other state changes. -/
theorem c4_amended_connect_only_sets_flag :
    ∀ (s : AppState) (t n : Nat),
      step s (.evConnect t) = ({ s with isConnected := true, now := t }, []) ∧
      step s (.evReconnect n t) = ({ s with isConnected := true, now := t }, []) := by
  intro s t n
  exact ⟨rfl, rfl⟩

/-- C8: submitting with a whitespace-only (or empty) input changes nothing
at all (no emission, no ledger entry, no timer, input text untouched);
submitting with non-empty trimmed text emits the message once (attempt 0)
and clears the input. -/
theorem c8_empty_input_no_send :
    ∀ (s : AppState) (nid : String) (t : Nat),
      (jsTrim s.inputText = "" →
        step s (.evSubmit nid t) = ({ s with now := t }, [])) ∧
      (jsTrim s.inputText ≠ "" →
        (step s (.evSubmit nid t)).2
            = [Effect.emitSend ⟨s.inputText, s.myUserId, nid, none⟩ 0 t] ∧
          (step s (.evSubmit nid t)).1.inputText = "") := by
  intro s nid t
  constructor
  · intro h
    simp [step, sendMessage, withNow, h]
  · intro h
    simp [step, sendMessage, withNow, h, sendMessageWithRetry]

/-- Witness for C8: a whitespace-only input is not sent; the input "hi" is
sent once. -/
theorem c8_witness :
    (step { initState "u" with inputText := "  " } (.evSubmit "m1" 5)
        = ({ initState "u" with inputText := "  ", now := 5 }, [])) ∧
    ((step { initState "u" with inputText := "hi" } (.evSubmit "m1" 5)).2
        = [Effect.emitSend ⟨"hi", "u", "m1", none⟩ 0 5]) :=
  ⟨(c8_empty_input_no_send { initState "u" with inputText := "  " } "m1" 5).1 (by decide),
   ((c8_empty_input_no_send { initState "u" with inputText := "hi" } "m1" 5).2 (by decide)).1⟩

/-- C3, failing input: message "m1" is submitted (attempt 0), its timer
escalates to attempt 1, attempt 1 is positively acknowledged, which removes
the ledger entry; then the late negative acknowledgment of attempt 0 is
processed.  The code does not ignore it: it re-inserts a ledger entry for
"m1" (retryCount 1, a fresh timer) and retransmits the message, so a late
acknowledgment after removal is not a no-op. -/
theorem c3_late_negative_ack_resurrects :
    ((run { initState "u" with inputText := "hi" }
        [.evSubmit "m1" 0, .evTimer 0 3000,
         .evAck ⟨"hi", "u", "m1", none⟩ 1 true 3100]).1.pending = []) ∧
    ((run { initState "u" with inputText := "hi" }
        [.evSubmit "m1" 0, .evTimer 0 3000,
         .evAck ⟨"hi", "u", "m1", none⟩ 1 true 3100,
         .evAck ⟨"hi", "u", "m1", none⟩ 0 false 3200]).1.pending
      = [("m1", ⟨⟨"hi", "u", "m1", none⟩, 1, some 2⟩)]) ∧
    ((run { initState "u" with inputText := "hi" }
        [.evSubmit "m1" 0, .evTimer 0 3000,
         .evAck ⟨"hi", "u", "m1", none⟩ 1 true 3100,
         .evAck ⟨"hi", "u", "m1", none⟩ 0 false 3200]).2
      = [.emitSend ⟨"hi", "u", "m1", none⟩ 0 0,
         .emitSend ⟨"hi", "u", "m1", none⟩ 1 3000,
         .emitSend ⟨"hi", "u", "m1", none⟩ 1 3200]) := by
  decide

/-- C6, failing input: message "m2" is submitted, escalates to attempt 1,
and attempt 1 is positively acknowledged while still pending — the entry is
removed (first two conjuncts, with exactly the two transmissions so far).
Then the stale negative acknowledgment of attempt 0 arrives and the code
transmits "m2" a third time, after the successful acknowledgment — so the
message is retransmitted after its positive acknowledgment. -/
theorem c6_retransmission_after_success :
    ((run { initState "u" with inputText := "yo" }
        [.evSubmit "m2" 0, .evTimer 0 3000,
         .evAck ⟨"yo", "u", "m2", none⟩ 1 true 4000]).1.pending = []) ∧
    ((run { initState "u" with inputText := "yo" }
        [.evSubmit "m2" 0, .evTimer 0 3000,
         .evAck ⟨"yo", "u", "m2", none⟩ 1 true 4000]).2
      = [.emitSend ⟨"yo", "u", "m2", none⟩ 0 0,
         .emitSend ⟨"yo", "u", "m2", none⟩ 1 3000]) ∧
    ((run { initState "u" with inputText := "yo" }
        [.evSubmit "m2" 0, .evTimer 0 3000,
         .evAck ⟨"yo", "u", "m2", none⟩ 1 true 4000,
         .evAck ⟨"yo", "u", "m2", none⟩ 0 false 5000]).2
      = [.emitSend ⟨"yo", "u", "m2", none⟩ 0 0,
         .emitSend ⟨"yo", "u", "m2", none⟩ 1 3000,
         .emitSend ⟨"yo", "u", "m2", none⟩ 1 5000]) := by
  decide

/-- C5 counterexample: a successful acknowledgment removes the pending
entry but leaves the entry's deadline timer armed (the timer list still
holds timer 0, armed by the submission), so the timer is not cancelled at
removal on the success path. -/
theorem c5_counterexample :
    ((run { initState "u" with inputText := "hi" }
        [.evSubmit "m1" 0, .evAck ⟨"hi", "u", "m1", none⟩ 0 true 100]).1.pending = []) ∧
    ((run { initState "u" with inputText := "hi" }
        [.evSubmit "m1" 0, .evAck ⟨"hi", "u", "m1", none⟩ 0 true 100]).1.timers
      = [⟨0, ⟨"hi", "u", "m1", none⟩, 0, 3000⟩]) := by
  decide

/-- C5 amended: on the terminal-failure removal path the entry's stored
timer is cancelled (no armed timer with that handle survives); on the
success path the timer is left armed, but a timer whose message id is no
longer in the ledger fires as a no-op: no effect, no ledger change, no
timeline change — so no retransmission ever results from a stale timer. -/
theorem c5_amended_cancellation :
    (∀ (s : AppState) (m : Message) (k tid : Nat) (p : PendingEntry),
        mapGet s.pending m.id = some p → p.timeout = some tid → ¬ k < MAX_RETRIES →
        ∀ tm ∈ (handleMessageFailure s m k).1.timers, tm.tid ≠ tid) ∧
    (∀ (s : AppState) (tid t : Nat) (tm : Timer),
        s.timers.find? (fun x => x.tid == tid) = some tm →
        mapGet s.pending tm.msg.id = none →
        (step s (.evTimer tid t)).2 = [] ∧
        (step s (.evTimer tid t)).1.pending = s.pending ∧
        (step s (.evTimer tid t)).1.messages = s.messages) := by
  constructor
  · intro s m k tid p hget hto hk tm htm
    simp only [handleMessageFailure, hget, hto, hk, if_false, clearTimer] at htm
    simp only [List.mem_filter] at htm
    have := htm.2
    simpa using this
  · intro s tid t tm hfind hget
    by_cases hlt : t < tm.fireAt
    · simp [step, withNow, hfind, hlt]
    · simp [step, withNow, hfind, hlt, hget]

/-- Witness for C5 amended: terminal failure on "m1" cancels timer 5 and
leaves only timer 7 armed; a stale timer firing on an id absent from the
ledger produces no effect. -/
theorem c5_witness :
    ((⟨7, ⟨"hi", "u", "m1", none⟩, 0, 99⟩ : Timer).tid ≠ 5) ∧
    ((step { initState "u" with
        timers := [⟨0, ⟨"hi", "u", "m1", none⟩, 0, 3000⟩], nextTid := 1 }
        (.evTimer 0 3000)).2 = []) :=
  ⟨c5_amended_cancellation.1
      ⟨"", [], 0, false, [], [("m1", ⟨⟨"hi", "u", "m1", none⟩, 3, some 5⟩)],
        [⟨5, ⟨"hi", "u", "m1", none⟩, 3, 99⟩, ⟨7, ⟨"hi", "u", "m1", none⟩, 0, 99⟩],
        8, 0, "u"⟩
      ⟨"hi", "u", "m1", none⟩ 3 5 ⟨⟨"hi", "u", "m1", none⟩, 3, some 5⟩
      (by decide) rfl (by decide) ⟨7, ⟨"hi", "u", "m1", none⟩, 0, 99⟩ (by decide),
   (c5_amended_cancellation.2
      { initState "u" with
        timers := [⟨0, ⟨"hi", "u", "m1", none⟩, 0, 3000⟩], nextTid := 1 }
      0 3000 ⟨0, ⟨"hi", "u", "m1", none⟩, 0, 3000⟩ (by decide) rfl).1⟩

/-- Unfolding lemma for `run` on a cons cell. -/
theorem run_cons (s : AppState) (e : Event) (es : List Event) :
    run s (e :: es)
      = ((run (step s e).1 es).1, (step s e).2 ++ (run (step s e).1 es).2) := rfl

/-- C2 counterexample: the concrete no-acknowledgment run (submit "hi" at
t=0, timers fire at 3000/6000/9000/12000).  The effect trace holds exactly
the four transmissions and one console-log entry, and the final state equals
the freshly mounted state up to the clock and the timer counter — in
particular every field the boundary can read (input text, timeline, user
count, connected flag) carries no record of the failure.  The code therefore
surfaces no terminal delivery-failure signal beyond the console log,
refuting the claim's "surfaced to the boundary ... (not merely logged)". -/
theorem c2_counterexample :
    ((run { initState "u" with inputText := "hi" }
        [.evSubmit "m1" 0, .evTimer 0 3000, .evTimer 1 6000,
         .evTimer 2 9000, .evTimer 3 12000]).2
      = [.emitSend ⟨"hi", "u", "m1", none⟩ 0 0,
         .emitSend ⟨"hi", "u", "m1", none⟩ 1 3000,
         .emitSend ⟨"hi", "u", "m1", none⟩ 2 6000,
         .emitSend ⟨"hi", "u", "m1", none⟩ 3 9000,
         .logFailure "m1"]) ∧
    ((run { initState "u" with inputText := "hi" }
        [.evSubmit "m1" 0, .evTimer 0 3000, .evTimer 1 6000,
         .evTimer 2 9000, .evTimer 3 12000]).1
      = { initState "u" with nextTid := 4, now := 12000 }) := by
  decide

/-- C2 amended: a submitted message that never receives an acknowledgment is
transmitted on submission and then retransmitted exactly MAX_RETRIES = 3
times, consecutive transmissions separated by at least RETRY_TIMEOUT = 3000
ms (each retry timer can only fire at or after its deadline), after which
the ledger entry is removed and the terminal failure is reported exactly
once — but only as a console log: no boundary-visible state changes (the
final state is the mounted state up to clock and timer counter). -/
theorem c2_amended_no_ack_retry_lifecycle (uid txt nid : String)
    (t0 t1 t2 t3 t4 : Nat) (htxt : jsTrim txt ≠ "")
    (h1 : t0 + RETRY_TIMEOUT ≤ t1) (h2 : t1 + RETRY_TIMEOUT ≤ t2)
    (h3 : t2 + RETRY_TIMEOUT ≤ t3) (h4 : t3 + RETRY_TIMEOUT ≤ t4) :
    run { initState uid with inputText := txt }
        [.evSubmit nid t0, .evTimer 0 t1, .evTimer 1 t2, .evTimer 2 t3, .evTimer 3 t4]
      = ({ initState uid with nextTid := 4, now := t4 },
         [.emitSend ⟨txt, uid, nid, none⟩ 0 t0, .emitSend ⟨txt, uid, nid, none⟩ 1 t1,
          .emitSend ⟨txt, uid, nid, none⟩ 2 t2, .emitSend ⟨txt, uid, nid, none⟩ 3 t3,
          .logFailure nid]) := by
  simp only [RETRY_TIMEOUT] at h1 h2 h3 h4
  have e1 : step { initState uid with inputText := txt } (.evSubmit nid t0)
      = (⟨"", [], 0, false, [], [(nid, ⟨⟨txt, uid, nid, none⟩, 0, some 0⟩)],
          [⟨0, ⟨txt, uid, nid, none⟩, 0, t0 + 3000⟩], 1, t0, uid⟩,
         [.emitSend ⟨txt, uid, nid, none⟩ 0 t0]) := by
    simp [step, withNow, sendMessage, htxt, sendMessageWithRetry, mapSet, initState,
      RETRY_TIMEOUT]
  have hge1 : ¬ t1 < t0 + 3000 := by omega
  have e2 : step (⟨"", [], 0, false, [], [(nid, ⟨⟨txt, uid, nid, none⟩, 0, some 0⟩)],
          [⟨0, ⟨txt, uid, nid, none⟩, 0, t0 + 3000⟩], 1, t0, uid⟩ : AppState)
        (.evTimer 0 t1)
      = (⟨"", [], 0, false, [], [(nid, ⟨⟨txt, uid, nid, none⟩, 1, some 1⟩)],
          [⟨1, ⟨txt, uid, nid, none⟩, 1, t1 + 3000⟩], 2, t1, uid⟩,
         [.emitSend ⟨txt, uid, nid, none⟩ 1 t1]) := by
    simp [step, withNow, List.find?, hge1, mapGet, handleMessageFailure, clearTimer,
      sendMessageWithRetry, mapSet, MAX_RETRIES, RETRY_TIMEOUT]
  have hge2 : ¬ t2 < t1 + 3000 := by omega
  have e3 : step (⟨"", [], 0, false, [], [(nid, ⟨⟨txt, uid, nid, none⟩, 1, some 1⟩)],
          [⟨1, ⟨txt, uid, nid, none⟩, 1, t1 + 3000⟩], 2, t1, uid⟩ : AppState)
        (.evTimer 1 t2)
      = (⟨"", [], 0, false, [], [(nid, ⟨⟨txt, uid, nid, none⟩, 2, some 2⟩)],
          [⟨2, ⟨txt, uid, nid, none⟩, 2, t2 + 3000⟩], 3, t2, uid⟩,
         [.emitSend ⟨txt, uid, nid, none⟩ 2 t2]) := by
    simp [step, withNow, List.find?, hge2, mapGet, handleMessageFailure, clearTimer,
      sendMessageWithRetry, mapSet, MAX_RETRIES, RETRY_TIMEOUT]
  have hge3 : ¬ t3 < t2 + 3000 := by omega
  have e4 : step (⟨"", [], 0, false, [], [(nid, ⟨⟨txt, uid, nid, none⟩, 2, some 2⟩)],
          [⟨2, ⟨txt, uid, nid, none⟩, 2, t2 + 3000⟩], 3, t2, uid⟩ : AppState)
        (.evTimer 2 t3)
      = (⟨"", [], 0, false, [], [(nid, ⟨⟨txt, uid, nid, none⟩, 3, some 3⟩)],
          [⟨3, ⟨txt, uid, nid, none⟩, 3, t3 + 3000⟩], 4, t3, uid⟩,
         [.emitSend ⟨txt, uid, nid, none⟩ 3 t3]) := by
    simp [step, withNow, List.find?, hge3, mapGet, handleMessageFailure, clearTimer,
      sendMessageWithRetry, mapSet, MAX_RETRIES, RETRY_TIMEOUT]
  have hge4 : ¬ t4 < t3 + 3000 := by omega
  have e5 : step (⟨"", [], 0, false, [], [(nid, ⟨⟨txt, uid, nid, none⟩, 3, some 3⟩)],
          [⟨3, ⟨txt, uid, nid, none⟩, 3, t3 + 3000⟩], 4, t3, uid⟩ : AppState)
        (.evTimer 3 t4)
      = (({ initState uid with nextTid := 4, now := t4 } : AppState),
         [.logFailure nid]) := by
    simp [step, withNow, List.find?, hge4, mapGet, handleMessageFailure, clearTimer,
      mapDelete, MAX_RETRIES, initState]
  rw [run_cons, e1]
  rw [run_cons, e2]
  rw [run_cons, e3]
  rw [run_cons, e4]
  rw [run_cons, e5]
  simp [run]

/-- Witness for C2 amended at message "hello" with minimally spaced timer
firings 10, 3010, 6010, 9010, 12010. -/
theorem c2_witness :
    run { initState "w" with inputText := "hello" }
        [.evSubmit "mw" 10, .evTimer 0 3010, .evTimer 1 6010,
         .evTimer 2 9010, .evTimer 3 12010]
      = ({ initState "w" with nextTid := 4, now := 12010 },
         [.emitSend ⟨"hello", "w", "mw", none⟩ 0 10,
          .emitSend ⟨"hello", "w", "mw", none⟩ 1 3010,
          .emitSend ⟨"hello", "w", "mw", none⟩ 2 6010,
          .emitSend ⟨"hello", "w", "mw", none⟩ 3 9010,
          .logFailure "mw"]) :=
  c2_amended_no_ack_retry_lifecycle "w" "hello" "mw" 10 3010 6010 9010 12010
    (by decide) (by decide) (by decide) (by decide) (by decide)


theorem contains_cons_eq (l : List String) (a b : String) :
    (b :: l).contains a = (a == b || l.contains a) := by
  cases h : a == b <;> simp [List.contains, List.elem, h]

theorem sendMessageWithRetry_frame (s : AppState) (m : Message) (k : Nat) :
    (sendMessageWithRetry s m k).1.messages = s.messages ∧
    (sendMessageWithRetry s m k).1.receivedMessageIds = s.receivedMessageIds := by
  simp [sendMessageWithRetry]

theorem handleMessageFailure_frame (s : AppState) (m : Message) (k : Nat) :
    (handleMessageFailure s m k).1.messages = s.messages ∧
    (handleMessageFailure s m k).1.receivedMessageIds = s.receivedMessageIds := by
  unfold handleMessageFailure
  rcases hg : mapGet s.pending m.id with _ | p
  · by_cases hk : k < MAX_RETRIES <;>
      simp [hk, sendMessageWithRetry, mapDelete]
  · rcases hto : p.timeout with _ | tid <;>
      by_cases hk : k < MAX_RETRIES <;>
        simp [hto, hk, sendMessageWithRetry, clearTimer, mapDelete]

theorem step_frame (s : AppState) (e : Event) :
    ((step s e).1.messages = s.messages ∧
     (step s e).1.receivedMessageIds = s.receivedMessageIds) ∨
    (∃ m t, e = Event.evReceive m t) ∨ (∃ b t, e = Event.evSync b t) := by
  cases e with
  | evReceive m t => exact Or.inr (Or.inl ⟨m, t, rfl⟩)
  | evSync b t => exact Or.inr (Or.inr ⟨b, t, rfl⟩)
  | evConnect t => left; simp [step, withNow]
  | evDisconnect t => left; simp [step, withNow]
  | evReconnectAttempt n t => left; simp [step, withNow]
  | evReconnect n t => left; simp [step, withNow]
  | evUserCount n t => left; simp [step, withNow]
  | evSetInput txt t => left; simp [step, withNow]
  | evSubmit nid t =>
    left
    by_cases h : jsTrim s.inputText = "" <;>
      simp [step, sendMessage, withNow, h, sendMessageWithRetry]
  | evAck m k success t =>
    left
    cases success
    · have := handleMessageFailure_frame (withNow s t) m k
      simpa [step, ackCallback, withNow] using this
    · simp [step, ackCallback, withNow, mapDelete]
  | evTimer tid t =>
    left
    rcases hfind : s.timers.find? (fun tm => tm.tid == tid) with _ | tm
    · simp [step, withNow, hfind]
    · by_cases hlt : t < tm.fireAt
      · simp [step, withNow, hfind, hlt]
      · by_cases hp : (mapGet s.pending tm.msg.id).isSome
        · have h2 := handleMessageFailure_frame
            { withNow s t with timers := s.timers.filter (fun x => x.tid != tid) } tm.msg tm.retryCount
          simp [step, withNow, hfind, hlt, hp] at h2 ⊢
          exact h2
        · simp [step, withNow, hfind, hlt, hp]

theorem syncFilter_sublist (ids : List String) (batch : List Message) :
    (syncFilter ids batch).2.Sublist batch := by
  induction batch generalizing ids with
  | nil => simp [syncFilter]
  | cons m rest ih =>
    by_cases h : ids.contains m.id = true
    · simp only [syncFilter, h, if_true]
      exact (ih ids).cons m
    · simp only [syncFilter, h, if_false]
      exact (ih (m.id :: ids)).cons₂ m

theorem syncFilter_admitted_not_in (ids : List String) (batch : List Message) :
    ∀ m ∈ (syncFilter ids batch).2, ids.contains m.id = false := by
  induction batch generalizing ids with
  | nil => simp [syncFilter]
  | cons m rest ih =>
    by_cases h : ids.contains m.id = true
    · simp only [syncFilter, h, if_true]
      exact ih ids
    · simp only [syncFilter, h, if_false]
      intro x hx
      rcases List.mem_cons.1 hx with rfl | hx2
      · simpa using h
      · have h2 := ih (m.id :: ids) x hx2
        rw [contains_cons_eq] at h2
        exact (Bool.or_eq_false_iff.1 h2).2

theorem syncFilter_new_admitted (ids : List String) (batch : List Message) :
    ∀ m ∈ batch, ids.contains m.id = false →
      ∃ m2 ∈ (syncFilter ids batch).2, m2.id = m.id := by
  induction batch generalizing ids with
  | nil => simp
  | cons m rest ih =>
    intro x hx hnotin
    by_cases h : ids.contains m.id = true
    · simp only [syncFilter, h, if_true]
      rcases List.mem_cons.1 hx with rfl | hx2
      · rw [hnotin] at h; cases h
      · exact ih ids x hx2 hnotin
    · simp only [syncFilter, h, if_false]
      rcases List.mem_cons.1 hx with rfl | hx2
      · exact ⟨x, List.mem_cons_self _ _, rfl⟩
      · by_cases hx_id : (x.id == m.id) = true
        · exact ⟨m, List.mem_cons_self _ _, (eq_of_beq hx_id).symm⟩
        · have hni : (m.id :: ids).contains x.id = false := by
            rw [contains_cons_eq]
            simp only [Bool.or_eq_false_iff]
            exact ⟨by simpa using hx_id, hnotin⟩
          obtain ⟨m2, hm2, hid⟩ := ih (m.id :: ids) x hx2 hni
          exact ⟨m2, List.mem_cons_of_mem _ hm2, hid⟩

theorem beq_comm_str (a b : String) : (a == b) = (b == a) := by
  by_cases hab : a = b
  · subst hab; rfl
  · rw [beq_eq_false_iff_ne.2 hab, beq_eq_false_iff_ne.2 (Ne.symm hab)]

theorem countId_append (xs ys : List Message) (i : String) :
    countId (xs ++ ys) i = countId xs i + countId ys i := by
  simp [countId, List.countP_append]

theorem handleSyncMessages_messages (s : AppState) (batch : List Message) :
    (handleSyncMessages s batch).messages
      = s.messages ++ (syncFilter s.receivedMessageIds batch).2 := by
  rcases hr : (syncFilter s.receivedMessageIds batch).2 with _ | ⟨a, l⟩ <;>
    simp [handleSyncMessages, hr]

theorem handleSyncMessages_rids (s : AppState) (batch : List Message) :
    (handleSyncMessages s batch).receivedMessageIds
      = (syncFilter s.receivedMessageIds batch).1 := rfl

theorem syncFilter_cons_skip (ids : List String) (m : Message) (rest : List Message)
    (h : ids.contains m.id = true) :
    syncFilter ids (m :: rest) = syncFilter ids rest := by
  simp only [syncFilter]
  rw [if_pos h]

theorem syncFilter_cons_keep (ids : List String) (m : Message) (rest : List Message)
    (h : ids.contains m.id = false) :
    syncFilter ids (m :: rest)
      = ((syncFilter (m.id :: ids) rest).1, m :: (syncFilter (m.id :: ids) rest).2) := by
  simp only [syncFilter]
  rw [if_neg (by rw [h]; exact Bool.false_ne_true)]

theorem syncFilter_fst_contains (ids : List String) (batch : List Message) (i : String) :
    ((syncFilter ids batch).1).contains i
      = (ids.contains i || batch.any (fun m => m.id == i)) := by
  induction batch generalizing ids with
  | nil => simp [syncFilter]
  | cons m rest ih =>
    rw [List.any_cons]
    by_cases h : ids.contains m.id = true
    · rw [syncFilter_cons_skip ids m rest h, ih ids]
      by_cases hmi : (m.id == i) = true
      · have hic : ids.contains i = true := by rw [← eq_of_beq hmi]; exact h
        rw [hic, hmi]
        simp
      · have hmi2 : (m.id == i) = false := by simpa using hmi
        rw [hmi2]
        simp
    · have h2 : ids.contains m.id = false := by simpa using h
      rw [syncFilter_cons_keep ids m rest h2]
      dsimp only
      rw [ih (m.id :: ids), contains_cons_eq, beq_comm_str]
      cases hx : (m.id == i) <;> cases hy : ids.contains i <;>
        cases hz : rest.any (fun m => m.id == i) <;> simp [hx, hy, hz]

theorem countId_singleton (data : Message) (i : String) :
    countId [data] i = if (data.id == i) = true then 1 else 0 := by
  simp [countId, List.countP_cons]

theorem syncFilter_countId (ids : List String) (batch : List Message) (i : String) :
    countId (syncFilter ids batch).2 i
      = if ids.contains i = true then 0
        else (if batch.any (fun m => m.id == i) = true then 1 else 0) := by
  induction batch generalizing ids with
  | nil =>
    simp [syncFilter, countId]
  | cons m rest ih =>
    rw [List.any_cons]
    by_cases h : ids.contains m.id = true
    · rw [syncFilter_cons_skip ids m rest h, ih ids]
      by_cases hmi : (m.id == i) = true
      · have hic : ids.contains i = true := by rw [← eq_of_beq hmi]; exact h
        rw [hic, hmi]
        simp
      · have hmi2 : (m.id == i) = false := by simpa using hmi
        rw [hmi2]
        simp
    · have h2 : ids.contains m.id = false := by simpa using h
      rw [syncFilter_cons_keep ids m rest h2]
      dsimp only
      have hcons : countId (m :: (syncFilter (m.id :: ids) rest).2) i
          = (if (m.id == i) = true then 1 else 0)
            + countId (syncFilter (m.id :: ids) rest).2 i := by
        simp [countId, List.countP_cons]
        cases hmi : (m.id == i) <;> simp [hmi, Nat.add_comm]
      rw [hcons, ih (m.id :: ids), contains_cons_eq, beq_comm_str]
      by_cases hmi : (i == m.id) = true
      · have hic : ids.contains i = false := by
          rw [eq_of_beq hmi]; exact h2
        rw [hmi, hic]
        simp
      · have hmi2 : (i == m.id) = false := by simpa using hmi
        rw [hmi2]
        cases hy : ids.contains i <;>
          cases hz : rest.any (fun m => m.id == i) <;> simp [hy, hz]

theorem handleReceiveMessage_dup (s : AppState) (data : Message)
    (h : s.receivedMessageIds.contains data.id = true) :
    handleReceiveMessage s data = s := by
  simp only [handleReceiveMessage]
  rw [if_pos h]

theorem handleReceiveMessage_new (s : AppState) (data : Message)
    (h : s.receivedMessageIds.contains data.id = false) :
    handleReceiveMessage s data
      = { s with receivedMessageIds := data.id :: s.receivedMessageIds,
                 messages := s.messages ++ [data] } := by
  simp only [handleReceiveMessage]
  rw [if_neg (by rw [h]; exact Bool.false_ne_true)]

theorem handleReceiveMessage_contains (s : AppState) (data : Message) (i : String) :
    (handleReceiveMessage s data).receivedMessageIds.contains i
      = (s.receivedMessageIds.contains i || (data.id == i)) := by
  by_cases h : s.receivedMessageIds.contains data.id = true
  · rw [handleReceiveMessage_dup s data h]
    by_cases hdi : (data.id == i) = true
    · have hic : s.receivedMessageIds.contains i = true := by
        rw [← eq_of_beq hdi]; exact h
      rw [hic, hdi]
      simp
    · have hdi2 : (data.id == i) = false := by simpa using hdi
      rw [hdi2]
      simp
  · have h2 : s.receivedMessageIds.contains data.id = false := by simpa using h
    rw [handleReceiveMessage_new s data h2]
    dsimp only
    rw [contains_cons_eq, beq_comm_str]
    cases hx : (data.id == i) <;> cases hy : s.receivedMessageIds.contains i <;>
      simp [hx, hy]

theorem handleReceiveMessage_inv (s : AppState) (data : Message) :
    dedupInv s → dedupInv (handleReceiveMessage s data) := by
  intro hs i
  rw [handleReceiveMessage_contains]
  by_cases h : s.receivedMessageIds.contains data.id = true
  · rw [handleReceiveMessage_dup s data h, hs i]
    by_cases hdi : (data.id == i) = true
    · have hic : s.receivedMessageIds.contains i = true := by
        rw [← eq_of_beq hdi]; exact h
      rw [hic, hdi]
      simp
    · have hdi2 : (data.id == i) = false := by simpa using hdi
      rw [hdi2]
      simp
  · have h2 : s.receivedMessageIds.contains data.id = false := by simpa using h
    rw [handleReceiveMessage_new s data h2]
    dsimp only
    rw [countId_append, hs i, countId_singleton]
    by_cases hdi : (data.id == i) = true
    · have hic : s.receivedMessageIds.contains i = false := by
        rw [← eq_of_beq hdi]; exact h2
      rw [hic, hdi]
      simp
    · have hdi2 : (data.id == i) = false := by simpa using hdi
      rw [hdi2]
      cases hy : s.receivedMessageIds.contains i <;> simp [hy]

theorem handleSyncMessages_inv (s : AppState) (batch : List Message) :
    dedupInv s → dedupInv (handleSyncMessages s batch) := by
  intro hs i
  rw [handleSyncMessages_messages, countId_append, hs i, handleSyncMessages_rids,
    syncFilter_fst_contains, syncFilter_countId]
  by_cases hc : s.receivedMessageIds.contains i = true
  · rw [hc]
    simp
  · have hc2 : s.receivedMessageIds.contains i = false := by simpa using hc
    rw [hc2]
    by_cases hb : batch.any (fun m => m.id == i) = true
    · rw [hb]
      simp
    · have hb2 : batch.any (fun m => m.id == i) = false := by simpa using hb
      rw [hb2]
      simp

theorem dedupInv_withNow (s : AppState) (t : Nat) :
    dedupInv s → dedupInv (withNow s t) :=
  fun hs => hs

theorem step_inv (s : AppState) (e : Event) : dedupInv s → dedupInv (step s e).1 := by
  intro hs
  rcases step_frame s e with h | ⟨m, t, rfl⟩ | ⟨b, t, rfl⟩
  · intro i
    rw [h.1, h.2]
    exact hs i
  · exact handleReceiveMessage_inv (withNow s t) m (dedupInv_withNow s t hs)
  · exact handleSyncMessages_inv (withNow s t) b (dedupInv_withNow s t hs)

theorem step_contains (s : AppState) (e : Event) (i : String) :
    ((step s e).1).receivedMessageIds.contains i
      = (s.receivedMessageIds.contains i || eventDeliversId e i) := by
  cases e with
  | evReceive m t =>
    have := handleReceiveMessage_contains (withNow s t) m i
    simpa [step, eventDeliversId] using this
  | evSync b t =>
    have h1 := syncFilter_fst_contains s.receivedMessageIds b i
    simpa [step, handleSyncMessages_rids, eventDeliversId] using h1
  | evConnect t => simp [step, withNow, eventDeliversId]
  | evDisconnect t => simp [step, withNow, eventDeliversId]
  | evReconnectAttempt n t => simp [step, withNow, eventDeliversId]
  | evReconnect n t => simp [step, withNow, eventDeliversId]
  | evUserCount n t => simp [step, withNow, eventDeliversId]
  | evSetInput txt t => simp [step, withNow, eventDeliversId]
  | evSubmit nid t =>
    rcases step_frame s (.evSubmit nid t) with h | ⟨m2, t2, h⟩ | ⟨b2, t2, h⟩
    · rw [h.2]
      simp [eventDeliversId]
    · simp at h
    · simp at h
  | evAck m k success t =>
    rcases step_frame s (.evAck m k success t) with h | ⟨m2, t2, h⟩ | ⟨b2, t2, h⟩
    · rw [h.2]
      simp [eventDeliversId]
    · simp at h
    · simp at h
  | evTimer tid t =>
    rcases step_frame s (.evTimer tid t) with h | ⟨m2, t2, h⟩ | ⟨b2, t2, h⟩
    · rw [h.2]
      simp [eventDeliversId]
    · simp at h
    · simp at h

theorem run_inv_count (es : List Event) :
    ∀ (s : AppState) (i : String), dedupInv s →
      countId (run s es).1.messages i
        = if (s.receivedMessageIds.contains i
              || es.any (fun e => eventDeliversId e i)) = true then 1 else 0 := by
  induction es with
  | nil =>
    intro s i hs
    simpa [run] using hs i
  | cons e rest ih =>
    intro s i hs
    rw [run_cons]
    dsimp only
    rw [ih (step s e).1 i (step_inv s e hs), step_contains]
    rw [List.any_cons, Bool.or_assoc]

/-- C9: submitting a message never modifies the visible timeline directly,
and more generally the only events that can change the timeline are a
receive_message delivery or a sync_messages batch from the relay — the
sender's own message can appear only through those delivery paths (where the
dedup filter admits it). -/
theorem c9_submit_never_modifies_timeline :
    ∀ (s : AppState) (nid : String) (t : Nat),
      (step s (.evSubmit nid t)).1.messages = s.messages ∧
      ∀ e : Event, (step s e).1.messages ≠ s.messages →
        (∃ m tt, e = Event.evReceive m tt) ∨ (∃ b tt, e = Event.evSync b tt) := by
  intro s nid t
  constructor
  · by_cases h : jsTrim s.inputText = "" <;>
      simp [step, sendMessage, withNow, h, sendMessageWithRetry]
  · intro e he
    rcases step_frame s e with h | h | h
    · exact absurd h.1 he
    · exact Or.inl h
    · exact Or.inr h

/-- Witness for C9: the event that appends to the timeline from the empty
state is classified as a delivery event. -/
theorem c9_witness :
    (∃ m tt, (Event.evReceive ⟨"a", "b", "c", none⟩ 7) = Event.evReceive m tt) ∨
    (∃ b tt, (Event.evReceive ⟨"a", "b", "c", none⟩ 7) = Event.evSync b tt) :=
  (c9_submit_never_modifies_timeline (initState "u") "x" 0).2
    (.evReceive ⟨"a", "b", "c", none⟩ 7) (by decide)

/-- C7: a sync_messages batch is filtered element by element through the
shared dedup set and exactly the admitted messages are appended after the
existing timeline tail: the appended suffix is a sublist of the batch (batch
order preserved), every admitted message's id was absent from the dedup set,
and every batch message whose id was absent from the set gets exactly its id
admitted. -/
theorem c7_sync_batch_filtered_append :
    ∀ (s : AppState) (batch : List Message) (t : Nat),
      ((step s (.evSync batch t)).1.messages
          = s.messages ++ (syncFilter s.receivedMessageIds batch).2) ∧
      ((syncFilter s.receivedMessageIds batch).2.Sublist batch) ∧
      (∀ m ∈ (syncFilter s.receivedMessageIds batch).2,
          s.receivedMessageIds.contains m.id = false) ∧
      (∀ m ∈ batch, s.receivedMessageIds.contains m.id = false →
          ∃ m2 ∈ (syncFilter s.receivedMessageIds batch).2, m2.id = m.id) := by
  intro s batch t
  refine ⟨?_, syncFilter_sublist _ _, syncFilter_admitted_not_in _ _,
    syncFilter_new_admitted _ _⟩
  have := handleSyncMessages_messages (withNow s t) batch
  simpa [step] using this

/-- Witness for C7: a batch with one already-seen id and one new id appends
exactly the new message, and the new id is admitted. -/
theorem c7_witness :
    ((step (⟨"", [⟨"old", "v", "a", none⟩], 0, false, ["a"], [], [], 0, 0, "u"⟩ : AppState)
        (.evSync [⟨"x", "v", "a", none⟩, ⟨"y", "v", "b", none⟩] 5)).1.messages
      = [⟨"old", "v", "a", none⟩, ⟨"y", "v", "b", none⟩]) ∧
    (∃ m2 ∈ (syncFilter ["a"] [⟨"x", "v", "a", none⟩, ⟨"y", "v", "b", none⟩]).2,
        m2.id = "b") :=
  ⟨(c7_sync_batch_filtered_append
      (⟨"", [⟨"old", "v", "a", none⟩], 0, false, ["a"], [], [], 0, 0, "u"⟩ : AppState)
      [⟨"x", "v", "a", none⟩, ⟨"y", "v", "b", none⟩] 5).1,
   (c7_sync_batch_filtered_append
      (⟨"", [⟨"old", "v", "a", none⟩], 0, false, ["a"], [], [], 0, 0, "u"⟩ : AppState)
      [⟨"x", "v", "a", none⟩, ⟨"y", "v", "b", none⟩] 5).2.2.2
      ⟨"y", "v", "b", none⟩ (by decide) (by decide)⟩

/-- C1: over any interleaving of events from the mounted state, the visible
timeline holds exactly one entry per delivered message id — one if some
receive_message or sync_messages event delivered that id, zero otherwise —
and a live delivery whose id is already in the dedup set leaves the timeline
unchanged. -/
theorem c1_duplicate_deliveries_one_timeline_entry :
    (∀ (uid : String) (es : List Event) (i : String),
      countId (run (initState uid) es).1.messages i
        = if es.any (fun e => eventDeliversId e i) = true then 1 else 0) ∧
    (∀ (s : AppState) (data : Message) (t : Nat),
      s.receivedMessageIds.contains data.id = true →
      (step s (.evReceive data t)).1.messages = s.messages) := by
  constructor
  · intro uid es i
    have h0 : dedupInv (initState uid) := by
      intro j
      simp [initState, countId, dedupInv]
    have := run_inv_count es (initState uid) i h0
    simpa [initState] using this
  · intro s data t h
    have hdup : handleReceiveMessage (withNow s t) data = withNow s t :=
      handleReceiveMessage_dup (withNow s t) data h
    have hstep : (step s (.evReceive data t)).1
        = handleReceiveMessage (withNow s t) data := rfl
    rw [hstep, hdup]
    rfl

/-- Witness for C1: a live redelivery of the already-seen id "x" leaves the
timeline unchanged. -/
theorem c1_witness :
    (step (⟨"", [⟨"t", "v", "x", none⟩], 0, false, ["x"], [], [], 0, 0, "u"⟩ : AppState)
        (.evReceive ⟨"t2", "w", "x", none⟩ 9)).1.messages
      = [⟨"t", "v", "x", none⟩] :=
  c1_duplicate_deliveries_one_timeline_entry.2
    (⟨"", [⟨"t", "v", "x", none⟩], 0, false, ["x"], [], [], 0, 0, "u"⟩ : AppState)
    ⟨"t2", "w", "x", none⟩ 9 (by decide)

end FreeChat
